import Mathlib

/-!
Shallow embedding of the pngme chunk codec (`src/chunk_type.rs`, `src/chunk.rs`).

Bytes are modelled as `Nat` values; where the value range of a machine
integer matters the embedding takes the residue `% 2 ^ 32` exactly where the
source casts, and theorems carry explicit `< 256` hypotheses for byte inputs.
Rust panics (out-of-range slice indexing) are modelled as an explicit
`panic` outcome of the fallible operations, distinct from the clean
`Err`/`FormatError` outcome.
-/

/-- The four property bytes of a PNG chunk type, as in `struct ChunkType`
(`src/chunk_type.rs`).  The Rust field `private` is a Lean keyword, hence the
field name `private_byte` here; all other field names match the source. -/
structure ChunkType where
  ancillary : Nat
  private_byte : Nat
  reserved : Nat
  safe_to_copy : Nat
deriving DecidableEq

/-- `ChunkType::bytes`: the four stored bytes in order. -/
def ChunkType.bytes (ct : ChunkType) : List Nat :=
  [ct.ancillary, ct.private_byte, ct.reserved, ct.safe_to_copy]

/-- `ChunkType::check_property_bit`: `byte & 32 == 0`. -/
def ChunkType.check_property_bit (b : Nat) : Bool :=
  b &&& 32 == 0

/-- `ChunkType::is_critical`: property bit of byte 0. -/
def ChunkType.is_critical (ct : ChunkType) : Bool :=
  ChunkType.check_property_bit ct.ancillary

/-- `ChunkType::is_public`: property bit of byte 1. -/
def ChunkType.is_public (ct : ChunkType) : Bool :=
  ChunkType.check_property_bit ct.private_byte

/-- `ChunkType::is_reserved_bit_valid`: property bit of byte 2. -/
def ChunkType.is_reserved_bit_valid (ct : ChunkType) : Bool :=
  ChunkType.check_property_bit ct.reserved

/-- `ChunkType::is_safe_to_copy`: negated property bit of byte 3. -/
def ChunkType.is_safe_to_copy (ct : ChunkType) : Bool :=
  !(ChunkType.check_property_bit ct.safe_to_copy)

/-- `ChunkType::is_valid`: in the source this returns exactly
`self.is_reserved_bit_valid()`. -/
def ChunkType.is_valid (ct : ChunkType) : Bool :=
  ct.is_reserved_bit_valid

/-- `TryFrom<[u8; 4]> for ChunkType`: stores the four bytes as-is and always
succeeds.  In the embedding it is only ever applied to lists of length 4
(the source passes a `[u8; 4]` array); the catch-all branch is unreachable. -/
def ChunkType.try_from (l : List Nat) : ChunkType :=
  match l with
  | [a, b, c, d] => ⟨a, b, c, d⟩
  | _ => ⟨0, 0, 0, 0⟩

/-- Rust `char::is_alphabetic` restricted to the ASCII range, which is the
range the claims quantify over (for ASCII characters the Unicode `Alphabetic`
property coincides with being an ASCII letter). -/
def is_alphabetic (b : Nat) : Bool :=
  (65 ≤ b && b ≤ 90) || (97 ≤ b && b ≤ 122)

/-- Outcome of `ChunkType::from_str`: clean success, a clean error
(`Box<dyn Error>` built from a string), or a Rust panic. -/
inductive StrResult where
  | ok (ct : ChunkType)
  | err (msg : String)
  | panic
deriving DecidableEq

/-- `FromStr for ChunkType` (`src/chunk_type.rs`): checks that every
character is alphabetic, then executes
`a.copy_from_slice(&s.as_bytes()[0..4])`.  The source performs no length
check: the slice `[0..4]` panics when the string is shorter than 4 bytes,
and silently truncates strings longer than 4 bytes.  The string is modelled
as its list of bytes (ASCII inputs, where the Rust per-`char` iteration visits
exactly the bytes). -/
def ChunkType.from_str (s : List Nat) : StrResult :=
  if s.all is_alphabetic then
    if s.length < 4 then .panic
    else
      match s.take 4 with
      | [a, b, c, d] => .ok ⟨a, b, c, d⟩
      | _ => .panic
  else .err "Could not convert to string"

/-- One reflected CRC-32 round of the polynomial `0xEDB88320`
(the reflected form of `0x04C11DB7`, the ISO-HDLC polynomial used by the
`CRC_32_ISO_HDLC` of the `crc` crate that the source instantiates). -/
def crcRound (c : Nat) : Nat :=
  if c &&& 1 == 1 then (c >>> 1) ^^^ 0xEDB88320 else c >>> 1

/-- Folding one input byte into the running CRC state: xor the byte into the
low bits, then eight polynomial rounds. -/
def crcByte (c b : Nat) : Nat :=
  crcRound (crcRound (crcRound (crcRound (crcRound (crcRound (crcRound (crcRound (c ^^^ b))))))))

/-- `Crc::<u32>::checksum` for `CRC_32_ISO_HDLC`: initial value
`0xFFFFFFFF`, reflected input/output, final xor `0xFFFFFFFF`.  Validated in
the theorems below against the test vector of the repository
(`crc = 2882656334` for type `"RuSt"` and the 42-byte test message). -/
def crc32 (bytes : List Nat) : Nat :=
  (bytes.foldl crcByte 0xFFFFFFFF) ^^^ 0xFFFFFFFF

/-- A parsed or constructed chunk, as in `struct Chunk` (`src/chunk.rs`). -/
structure Chunk where
  length : Nat
  chunk_type : ChunkType
  data : List Nat
  crc : Nat
deriving DecidableEq

/-- `calculate_crc` (`src/chunk.rs`): CRC-32 over the type bytes followed by
the data bytes. -/
def calculate_crc (chunk_type : ChunkType) (data : List Nat) : Nat :=
  crc32 (chunk_type.bytes ++ data)

/-- `Chunk::new`: computes the crc fresh and stores `data.len() as u32` —
the cast truncates the length to 32 bits, modelled by `% 2 ^ 32`. -/
def Chunk.new (chunk_type : ChunkType) (data : List Nat) : Chunk :=
  { length := data.length % 2 ^ 32
    chunk_type := chunk_type
    data := data
    crc := calculate_crc chunk_type data }

/-- `u32::to_be_bytes` on a value below `2 ^ 32`: the four bytes of `n`,
most significant first. -/
def u32_to_be (n : Nat) : List Nat :=
  [n / 2 ^ 24 % 256, n / 2 ^ 16 % 256, n / 2 ^ 8 % 256, n % 256]

/-- `Chunk::as_bytes`: length as 4 big-endian bytes, the 4 type bytes, the
raw data, the crc as 4 big-endian bytes. -/
def Chunk.as_bytes (c : Chunk) : List Nat :=
  u32_to_be c.length ++ c.chunk_type.bytes ++ c.data ++ u32_to_be c.crc

/-- `u32::from_be_bytes` on a 4-byte buffer.  In the source this is only
applied to the 4-byte `l_buf` filled by `read_exact`; the catch-all branch
is unreachable. -/
def u32_from_be (l : List Nat) : Nat :=
  match l with
  | [a, b, c, d] => a * 2 ^ 24 + b * 2 ^ 16 + c * 2 ^ 8 + d
  | _ => 0

/-- The bit-shift loop of `TryFrom<&Vec<u8>> for Chunk` that rebuilds the
stored crc: `crc = crc + (b << ((3 - i) * 8))` over the enumerated crc
bytes. -/
def crc_shift_sum (l : List Nat) : Nat :=
  l.enum.foldl (fun crc p => crc + p.2 * 2 ^ ((3 - p.1) * 8)) 0

/-- Outcome of `Chunk::try_from`: clean success, a clean error, or a Rust
panic (out-of-range slice index). -/
inductive ParseResult where
  | ok (c : Chunk)
  | err (msg : String)
  | panic
deriving DecidableEq

/-- `TryFrom<&Vec<u8>> for Chunk` (`src/chunk.rs`).  Steps, in source
order: reject buffers shorter than 12 bytes; read the big-endian length and
the 4 type bytes off the front (the reads cannot fail once the buffer has at
least 12 bytes); compute `data_terminator = length + 8`; slice
`bytes[data_terminator..data_terminator + 4]` — the source performs no bounds
check first, so this slice panics whenever `data_terminator + 4` exceeds the
buffer length — then slice `bytes[8..data_terminator]`; rebuild the stored
crc by the shift loop; recompute the crc and compare. -/
def Chunk.try_from (bytes : List Nat) : ParseResult :=
  if bytes.length < 12 then .err "Invalid chunk length"
  else
    let length := u32_from_be (bytes.take 4)
    let chunk_type := ChunkType.try_from ((bytes.drop 4).take 4)
    let data_terminator := length + 8
    if bytes.length < data_terminator + 4 then .panic
    else
      let crc_bytes := (bytes.drop data_terminator).take 4
      let data := (bytes.drop 8).take length
      let crc := crc_shift_sum crc_bytes
      let test_crc := calculate_crc chunk_type data
      if test_crc ≠ crc then .err "CRC mismatch"
      else .ok ⟨length, chunk_type, data, crc⟩

/-- The byte list of the repository test message
`"This is where your secret message will be!"`. -/
def secret_message : List Nat :=
  "This is where your secret message will be!".data.map Char.toNat

/-- The `"RuSt"` chunk type, `[82, 117, 83, 116]`. -/
def rust_ct : ChunkType := ⟨82, 117, 83, 116⟩

/-- The negative-scenario buffer of the repository test
`test_invalid_chunk_from_bytes`: length 42, type `"RuSt"`, the test message,
and the off-by-one crc 2882656333. -/
def bad_buffer : List Nat :=
  u32_to_be 42 ++ [82, 117, 83, 116] ++ secret_message ++ u32_to_be 2882656333

/-- A minimal well-formed 12-byte buffer: length 0, type `"RuSt"`, no data,
and the matching crc. -/
def good_buffer : List Nat :=
  [0, 0, 0, 0, 82, 117, 83, 116] ++ u32_to_be (calculate_crc rust_ct [])

theorem crcRound_lt (c : Nat) (h : c < 2 ^ 32) : crcRound c < 2 ^ 32 := by
  unfold crcRound
  split
  · exact Nat.xor_lt_two_pow (by omega) (by norm_num)
  · omega

theorem crcByte_lt (c b : Nat) (hc : c < 2 ^ 32) (hb : b < 256) : crcByte c b < 2 ^ 32 := by
  unfold crcByte
  have h0 : c ^^^ b < 2 ^ 32 := Nat.xor_lt_two_pow hc (by omega)
  exact crcRound_lt _ (crcRound_lt _ (crcRound_lt _ (crcRound_lt _ (crcRound_lt _ (crcRound_lt _ (crcRound_lt _ (crcRound_lt _ h0)))))))

theorem crc32_foldl_lt (l : List Nat) (c : Nat) (hc : c < 2 ^ 32)
    (hl : ∀ b ∈ l, b < 256) : l.foldl crcByte c < 2 ^ 32 := by
  induction l generalizing c with
  | nil => simpa using hc
  | cons x xs ih =>
      simp only [List.foldl_cons]
      exact ih (crcByte c x) (crcByte_lt c x hc (hl x (by simp))) (fun b hb => hl b (by simp [hb]))

theorem crc32_lt (l : List Nat) (hl : ∀ b ∈ l, b < 256) : crc32 l < 2 ^ 32 := by
  unfold crc32
  exact Nat.xor_lt_two_pow (crc32_foldl_lt l 0xFFFFFFFF (by norm_num) hl) (by norm_num)

theorem try_from_eq (bytes : List Nat) (L : Nat)
    (h12 : 12 ≤ bytes.length)
    (hL : u32_from_be (bytes.take 4) = L)
    (hb : L + 12 ≤ bytes.length) :
    Chunk.try_from bytes =
      if calculate_crc (ChunkType.try_from ((bytes.drop 4).take 4)) ((bytes.drop 8).take L) ≠
          crc_shift_sum ((bytes.drop (L + 8)).take 4)
      then .err "CRC mismatch"
      else .ok ⟨L, ChunkType.try_from ((bytes.drop 4).take 4), (bytes.drop 8).take L,
                crc_shift_sum ((bytes.drop (L + 8)).take 4)⟩ := by
  simp only [Chunk.try_from, hL]
  rw [if_neg (by omega), if_neg (by omega)]

theorem u32_from_be_to_be (n : Nat) (h : n < 2 ^ 32) : u32_from_be (u32_to_be n) = n := by
  simp only [u32_to_be, u32_from_be]
  omega

theorem crc_shift_sum_quad (a b c d : Nat) :
    crc_shift_sum [a, b, c, d] = a * 2 ^ 24 + b * 2 ^ 16 + c * 2 ^ 8 + d := by
  simp [crc_shift_sum, List.enum, List.foldl]

theorem crc_shift_sum_to_be (n : Nat) (h : n < 2 ^ 32) : crc_shift_sum (u32_to_be n) = n := by
  unfold u32_to_be
  rw [crc_shift_sum_quad]
  omega

theorem take_left_of_len {α : Type} (l₁ l₂ : List α) (n : Nat) (h : l₁.length = n) :
    (l₁ ++ l₂).take n = l₁ := by
  subst h; exact List.take_left l₁ l₂

theorem drop_left_of_len {α : Type} (l₁ l₂ : List α) (n : Nat) (h : l₁.length = n) :
    (l₁ ++ l₂).drop n = l₂ := by
  subst h; exact List.drop_left l₁ l₂

theorem try_from_ct_bytes (ct : ChunkType) : ChunkType.try_from ct.bytes = ct := by
  cases ct; rfl

theorem try_from_as_bytes (L : Nat) (ct : ChunkType) (data : List Nat) (crcv : Nat)
    (hL : L = data.length) (hL32 : L < 2 ^ 32)
    (hcrc : crcv = calculate_crc ct data) (hcrc32 : crcv < 2 ^ 32) :
    Chunk.try_from (Chunk.as_bytes ⟨L, ct, data, crcv⟩) = .ok ⟨L, ct, data, crcv⟩ := by
  set B := Chunk.as_bytes ⟨L, ct, data, crcv⟩ with hB
  have h1 : B = u32_to_be L ++ (ct.bytes ++ (data ++ u32_to_be crcv)) := by
    simp [hB, Chunk.as_bytes]
  have h2 : B = (u32_to_be L ++ ct.bytes) ++ (data ++ u32_to_be crcv) := by
    simp [hB, Chunk.as_bytes, List.append_assoc]
  have h3 : B = ((u32_to_be L ++ ct.bytes) ++ data) ++ u32_to_be crcv := by
    simp [hB, Chunk.as_bytes, List.append_assoc]
  have hlen : B.length = L + 12 := by
    rw [h1]; simp [u32_to_be, ChunkType.bytes]; omega
  have htake4 : B.take 4 = u32_to_be L := by
    rw [h1]; exact take_left_of_len _ _ _ rfl
  have hdec : u32_from_be (B.take 4) = L := by
    rw [htake4]; exact u32_from_be_to_be L hL32
  have hdrop4 : B.drop 4 = ct.bytes ++ (data ++ u32_to_be crcv) := by
    rw [h1]; exact drop_left_of_len _ _ _ rfl
  have hct : (B.drop 4).take 4 = ct.bytes := by
    rw [hdrop4]; exact take_left_of_len _ _ _ rfl
  have hdrop8 : B.drop 8 = data ++ u32_to_be crcv := by
    rw [h2]; exact drop_left_of_len _ _ _ (by simp [u32_to_be, ChunkType.bytes])
  have hdata : (B.drop 8).take L = data := by
    rw [hdrop8]; exact take_left_of_len _ _ _ hL.symm
  have hdropL8 : B.drop (L + 8) = u32_to_be crcv := by
    rw [h3]
    refine drop_left_of_len _ _ _ ?_
    simp [u32_to_be, ChunkType.bytes]
    omega
  have hstored : crc_shift_sum ((B.drop (L + 8)).take 4) = crcv := by
    rw [hdropL8]
    rw [show (u32_to_be crcv).take 4 = u32_to_be crcv from by simp [u32_to_be]]
    exact crc_shift_sum_to_be _ hcrc32
  rw [try_from_eq B L (by omega) hdec (by omega)]
  rw [hct, try_from_ct_bytes, hdata, hstored]
  rw [if_neg (by simp [hcrc])]

theorem u32_from_be_lt (l : List Nat) (h : ∀ b ∈ l, b < 256) : u32_from_be l < 2 ^ 32 := by
  unfold u32_from_be
  split
  · rename_i a b c d
    have ha := h a (by simp)
    have hb := h b (by simp)
    have hc := h c (by simp)
    have hd := h d (by simp)
    omega
  · positivity

theorem try_from_bytes_of_len4 (l : List Nat) (h : l.length = 4) :
    (ChunkType.try_from l).bytes = l := by
  match l, h with
  | [a, b, c, d], _ => rfl

theorem crc_shift_sum_eq_u32 (l : List Nat) (h : l.length = 4) :
    crc_shift_sum l = u32_from_be l := by
  match l, h with
  | [a, b, c, d], _ => rw [crc_shift_sum_quad]; rfl

theorem slice_append {α : Type} (l₁ l₂ : List α) (k m : Nat) (h : k + m ≤ l₁.length) :
    ((l₁ ++ l₂).drop k).take m = (l₁.drop k).take m := by
  rw [List.drop_append_of_le_length (by omega)]
  rw [List.take_append_of_le_length (by simp [List.length_drop]; omega)]

theorem try_from_ok_spec (bytes : List Nat) (c : Chunk) (h : Chunk.try_from bytes = .ok c) :
    c.length = u32_from_be (bytes.take 4) ∧
    12 ≤ bytes.length ∧
    c.length + 12 ≤ bytes.length ∧
    c.chunk_type = ChunkType.try_from ((bytes.drop 4).take 4) ∧
    c.data = (bytes.drop 8).take c.length ∧
    c.crc = calculate_crc c.chunk_type c.data ∧
    c.length = c.data.length := by
  simp only [Chunk.try_from] at h
  split at h
  · cases h
  · rename_i h12
    split at h
    · cases h
    · rename_i hbnd
      split at h
      · cases h
      · rename_i hcrc
        injection h with h
        subst h
        push_neg at hcrc
        dsimp only
        refine ⟨rfl, by omega, by omega, rfl, rfl, hcrc.symm, ?_⟩
        simp only [List.length_take, List.length_drop]
        omega

theorem check_property_bit_iff (b : Nat) :
    ChunkType.check_property_bit b = true ↔ b.testBit 5 = false := by
  unfold ChunkType.check_property_bit
  rw [show (32 : Nat) = 2 ^ 5 from rfl, Nat.and_two_pow]
  cases h : b.testBit 5 <;> simp [h]

/-- Claim C2: contradicted by the code.  On the 12-byte buffer whose length
field is 1, the bound `8 + 1 + 4 = 13` exceeds the buffer length, and
`Chunk.try_from` slices `bytes[9..13]` without any prior bounds check, which
panics (an out-of-range slice index) instead of returning a clean
`FormatError`. -/
theorem c2_oob_length_panics :
    Chunk.try_from [0, 0, 0, 1, 82, 117, 83, 116, 0, 0, 0, 0] = .panic := by decide

/-- Claim C3: contradicted by the code.  `ChunkType.from_str` performs no
length check, so the 2-character alphabetic string `"Ru"` panics on the
byte slice `[0..4]` instead of failing cleanly before any byte access, and
the 5-character string `"RuStX"` succeeds with the truncated first four
bytes instead of returning a `FormatError`. -/
theorem c3_from_str_bug :
    ChunkType.from_str [82, 117] = .panic ∧
    ChunkType.from_str [82, 117, 83, 116, 88] = .ok ⟨82, 117, 83, 116⟩ := by decide

/-- Claim C4, as stated, is false at a concrete input: the chunk type with
bytes `[82, 64, 83, 116]` has a clear reserved bit but contains the
non-alphabetic byte 64, and `is_valid` still returns true. -/
theorem c4_counterexample :
    ¬ (ChunkType.is_valid ⟨82, 64, 83, 116⟩ = true ↔
        (ChunkType.is_reserved_bit_valid ⟨82, 64, 83, 116⟩ = true ∧
         ((⟨82, 64, 83, 116⟩ : ChunkType).bytes.all is_alphabetic) = true)) := by decide

/-- Claim C4 (amended): `is_valid` returns true iff bit 5 (value 0x20) of
the third byte (the reserved byte) is clear; the code performs no
alphabetic check. -/
theorem c4_is_valid_reserved_only (ct : ChunkType) :
    ct.is_valid = true ↔ ct.reserved.testBit 5 = false :=
  check_property_bit_iff ct.reserved

/-- Claim C6: every buffer shorter than 12 bytes is rejected with the
length `FormatError`, regardless of its content. -/
theorem c6_short_buffer (bytes : List Nat) (h : bytes.length < 12) :
    Chunk.try_from bytes = .err "Invalid chunk length" := by
  simp [Chunk.try_from, h]

/-- Witness for C6 at the concrete 3-byte buffer `[1, 2, 3]`. -/
theorem c6_witness :
    ([1, 2, 3] : List Nat).length < 12 ∧
    Chunk.try_from [1, 2, 3] = .err "Invalid chunk length" :=
  ⟨by decide, c6_short_buffer [1, 2, 3] (by decide)⟩

/-- Claim C8: for every chunk type, `is_critical`, `is_public` and
`is_reserved_bit_valid` are true iff bit 5 of bytes 0, 1 and 2 respectively
is clear, and `is_safe_to_copy` is true iff bit 5 of byte 3 is set
(inverted); moreover the concrete values for `"RuSt"`, `"ruSt"`, `"RUSt"`,
`"Rust"` and `"RuST"` are exactly as claimed. -/
theorem c8_property_bits :
    (∀ ct : ChunkType,
      (ct.is_critical = true ↔ ct.ancillary.testBit 5 = false) ∧
      (ct.is_public = true ↔ ct.private_byte.testBit 5 = false) ∧
      (ct.is_reserved_bit_valid = true ↔ ct.reserved.testBit 5 = false) ∧
      (ct.is_safe_to_copy = true ↔ ct.safe_to_copy.testBit 5 = true)) ∧
    (ChunkType.from_str [82, 117, 83, 116] = .ok rust_ct ∧
     rust_ct.is_critical = true ∧ rust_ct.is_public = false ∧
     rust_ct.is_reserved_bit_valid = true ∧ rust_ct.is_safe_to_copy = true ∧
     rust_ct.is_valid = true ∧
     ChunkType.is_critical ⟨114, 117, 83, 116⟩ = false ∧
     ChunkType.is_public ⟨82, 85, 83, 116⟩ = true ∧
     ChunkType.is_reserved_bit_valid ⟨82, 117, 115, 116⟩ = false ∧
     ChunkType.is_valid ⟨82, 117, 115, 116⟩ = false ∧
     ChunkType.is_safe_to_copy ⟨82, 117, 83, 84⟩ = false) := by
  constructor
  · intro ct
    refine ⟨check_property_bit_iff ct.ancillary, check_property_bit_iff ct.private_byte,
            check_property_bit_iff ct.reserved, ?_⟩
    have hc := check_property_bit_iff ct.safe_to_copy
    cases hcb : ChunkType.check_property_bit ct.safe_to_copy <;>
      simp [hcb] at hc <;> simp [ChunkType.is_safe_to_copy, hcb, hc]
  · decide

/-- Claim C9: `Chunk.as_bytes` emits, positionally, the length as 4
big-endian bytes, then the 4 chunk-type bytes verbatim, then the raw data,
then the crc as 4 big-endian bytes; a chunk with empty data serializes to
exactly 12 bytes. -/
theorem c9_serialize_layout (c : Chunk) :
    c.as_bytes.length = 12 + c.data.length ∧
    c.as_bytes.take 4 = u32_to_be c.length ∧
    (c.as_bytes.drop 4).take 4 = c.chunk_type.bytes ∧
    (c.as_bytes.drop 8).take c.data.length = c.data ∧
    c.as_bytes.drop (8 + c.data.length) = u32_to_be c.crc ∧
    (c.data = [] → c.as_bytes.length = 12) := by
  have h1 : c.as_bytes = u32_to_be c.length ++ (c.chunk_type.bytes ++ (c.data ++ u32_to_be c.crc)) := by
    simp [Chunk.as_bytes]
  have h2 : c.as_bytes = (u32_to_be c.length ++ c.chunk_type.bytes) ++ (c.data ++ u32_to_be c.crc) := by
    simp [Chunk.as_bytes, List.append_assoc]
  have h3 : c.as_bytes = ((u32_to_be c.length ++ c.chunk_type.bytes) ++ c.data) ++ u32_to_be c.crc := by
    simp [Chunk.as_bytes, List.append_assoc]
  have hlen : c.as_bytes.length = 12 + c.data.length := by
    rw [h1]; simp [u32_to_be, ChunkType.bytes]; omega
  refine ⟨hlen, ?_, ?_, ?_, ?_, fun hd => by rw [hlen, hd]; rfl⟩
  · rw [h1]; exact take_left_of_len _ _ _ rfl
  · rw [h1, drop_left_of_len (u32_to_be c.length) _ 4 rfl]
    exact take_left_of_len _ _ _ rfl
  · rw [h2, drop_left_of_len _ _ 8 (by simp [u32_to_be, ChunkType.bytes])]
    exact take_left_of_len _ _ _ rfl
  · rw [h3]
    exact drop_left_of_len _ _ _ (by simp [u32_to_be, ChunkType.bytes]; omega)

/-- Witness for C9 at the concrete chunk `Chunk.new rust_ct []`. -/
theorem c9_witness : (Chunk.new rust_ct []).as_bytes.length = 12 :=
  (c9_serialize_layout (Chunk.new rust_ct [])).2.2.2.2.2 rfl

set_option maxRecDepth 4000 in
theorem crc32_test_vector : crc32 ([82, 117, 83, 116] ++ secret_message) = 2882656334 := by
  have e : ([82, 117, 83, 116] : List Nat) ++ secret_message =
      [82, 117, 83, 116, 84, 104, 105, 115] ++ ([32, 105, 115, 32, 119, 104, 101, 114] ++
      ([101, 32, 121, 111, 117, 114, 32, 115] ++ ([101, 99, 114, 101, 116, 32, 109, 101] ++
      ([115, 115, 97, 103, 101, 32, 119, 105] ++ [108, 108, 32, 98, 101, 33])))) := by decide
  have h1 : List.foldl crcByte 0xFFFFFFFF [82, 117, 83, 116, 84, 104, 105, 115] = 3395216882 := by decide
  have h2 : List.foldl crcByte 3395216882 [32, 105, 115, 32, 119, 104, 101, 114] = 3296048446 := by decide
  have h3 : List.foldl crcByte 3296048446 [101, 32, 121, 111, 117, 114, 32, 115] = 2459250755 := by decide
  have h4 : List.foldl crcByte 2459250755 [101, 99, 114, 101, 116, 32, 109, 101] = 3991588506 := by decide
  have h5 : List.foldl crcByte 3991588506 [115, 115, 97, 103, 101, 32, 119, 105] = 850995998 := by decide
  have h6 : List.foldl crcByte 850995998 [108, 108, 32, 98, 101, 33] = 1412310961 := by decide
  unfold crc32
  rw [e, List.foldl_append, h1, List.foldl_append, h2, List.foldl_append, h3,
      List.foldl_append, h4, List.foldl_append, h5, h6]
  decide

set_option maxRecDepth 10000 in
/-- Claim C5: for every buffer of at least 12 bytes whose length field `L`
is in bounds, `Chunk.try_from` fails with the `"CRC mismatch"` error iff
the CRC-32 recomputed over the 4 chunk-type bytes followed by the extracted
data differs from the 4 crc bytes interpreted as a big-endian u32, and on a
match returns the chunk carrying the parsed length, type, data and crc; in
particular the repository test buffer with crc forced to 2882656333 is
rejected. -/
theorem c5_crc_check :
    (∀ bytes L, (∀ b ∈ bytes, b < 256) → 12 ≤ bytes.length →
      u32_from_be (bytes.take 4) = L → L + 12 ≤ bytes.length →
      ((Chunk.try_from bytes = .err "CRC mismatch" ↔
          calculate_crc (ChunkType.try_from ((bytes.drop 4).take 4)) ((bytes.drop 8).take L) ≠
            u32_from_be ((bytes.drop (L + 8)).take 4)) ∧
       (calculate_crc (ChunkType.try_from ((bytes.drop 4).take 4)) ((bytes.drop 8).take L) =
            u32_from_be ((bytes.drop (L + 8)).take 4) →
          Chunk.try_from bytes = .ok ⟨L, ChunkType.try_from ((bytes.drop 4).take 4),
            (bytes.drop 8).take L, u32_from_be ((bytes.drop (L + 8)).take 4)⟩))) ∧
    Chunk.try_from bad_buffer = .err "CRC mismatch" := by
  constructor
  · intro bytes L hbyte h12 hL hb
    have hslice : ((bytes.drop (L + 8)).take 4).length = 4 := by
      simp only [List.length_take, List.length_drop]
      omega
    have hsum := crc_shift_sum_eq_u32 _ hslice
    rw [try_from_eq bytes L h12 hL hb, hsum]
    by_cases heq : calculate_crc (ChunkType.try_from ((bytes.drop 4).take 4)) ((bytes.drop 8).take L) =
        u32_from_be ((bytes.drop (L + 8)).take 4) <;>
      simp [heq]
  · have hL : u32_from_be (bad_buffer.take 4) = 42 := by decide
    rw [try_from_eq bad_buffer 42 (by decide) hL (by decide)]
    have hct : (bad_buffer.drop 4).take 4 = [82, 117, 83, 116] := by decide
    have hdata : (bad_buffer.drop 8).take 42 = secret_message := by decide
    have hstored : crc_shift_sum ((bad_buffer.drop (42 + 8)).take 4) = 2882656333 := by decide
    have hcrc : calculate_crc (ChunkType.try_from [82, 117, 83, 116]) secret_message = 2882656334 := by
      show crc32 ([82, 117, 83, 116] ++ secret_message) = 2882656334
      exact crc32_test_vector
    rw [hct, hdata, hstored, hcrc]
    rw [if_pos (by decide)]

set_option maxRecDepth 4000 in
/-- Witness for C5 at the concrete 12-byte buffer `good_buffer`. -/
theorem c5_witness :
    Chunk.try_from good_buffer = .ok ⟨0, ChunkType.try_from ((good_buffer.drop 4).take 4),
      (good_buffer.drop 8).take 0, u32_from_be ((good_buffer.drop (0 + 8)).take 4)⟩ :=
  (c5_crc_check.1 good_buffer 0 (by decide) (by decide) (by decide) (by decide)).2 (by decide)

theorem try_from_append_junk (bytes junk : List Nat) (L : Nat)
    (h12 : 12 ≤ bytes.length) (hL : u32_from_be (bytes.take 4) = L)
    (hb : L + 12 ≤ bytes.length) :
    Chunk.try_from (bytes ++ junk) = Chunk.try_from bytes := by
  have hL' : u32_from_be ((bytes ++ junk).take 4) = L := by
    rw [List.take_append_of_le_length (by omega)]; exact hL
  rw [try_from_eq (bytes ++ junk) L (by simp; omega) hL' (by simp; omega),
      try_from_eq bytes L h12 hL hb]
  rw [slice_append bytes junk 4 4 (by omega), slice_append bytes junk 8 L (by omega),
      slice_append bytes junk (L + 8) 4 (by omega)]

/-- Claim C10: parsing does not require the buffer to be exactly one chunk
long: appending any trailing bytes leaves the parse result unchanged, the
result depends only on the first `L + 12` bytes, and when the recomputed
CRC matches the stored one the parse succeeds with the fields taken from
those bytes. -/
theorem c10_trailing_ignored :
    ∀ (bytes junk : List Nat) (L : Nat), 12 ≤ bytes.length →
      u32_from_be (bytes.take 4) = L → L + 12 ≤ bytes.length →
      Chunk.try_from (bytes ++ junk) = Chunk.try_from bytes ∧
      Chunk.try_from bytes = Chunk.try_from (bytes.take (L + 12)) ∧
      (calculate_crc (ChunkType.try_from ((bytes.drop 4).take 4)) ((bytes.drop 8).take L) =
          u32_from_be ((bytes.drop (L + 8)).take 4) →
        Chunk.try_from bytes = .ok ⟨L, ChunkType.try_from ((bytes.drop 4).take 4),
          (bytes.drop 8).take L, u32_from_be ((bytes.drop (L + 8)).take 4)⟩) := by
  intro bytes junk L h12 hL hb
  have hpre_len : (bytes.take (L + 12)).length = L + 12 := by
    simp only [List.length_take]; omega
  have htake4 : (bytes.take (L + 12)).take 4 = bytes.take 4 := by
    rw [List.take_take, show min 4 (L + 12) = 4 from by omega]
  refine ⟨try_from_append_junk bytes junk L h12 hL hb, ?_, ?_⟩
  · conv_lhs => rw [(List.take_append_drop (L + 12) bytes).symm]
    exact try_from_append_junk (bytes.take (L + 12)) (bytes.drop (L + 12)) L
      (by omega) (by rw [htake4]; exact hL) (by omega)
  · intro h
    have hslice : ((bytes.drop (L + 8)).take 4).length = 4 := by
      simp only [List.length_take, List.length_drop]; omega
    rw [try_from_eq bytes L h12 hL hb, crc_shift_sum_eq_u32 _ hslice, if_neg (by simpa using h)]

set_option maxRecDepth 4000 in
/-- Witness for C10: appending trailing junk to `good_buffer` does not
change the parse result. -/
theorem c10_witness :
    Chunk.try_from (good_buffer ++ [9, 9, 9]) = Chunk.try_from good_buffer :=
  (c10_trailing_ignored good_buffer [9, 9, 9] 0 (by decide) (by decide) (by decide)).1

/-- Claim C1 (amended): serializing the chunk built by `Chunk.new` with
`Chunk.as_bytes` and parsing the result with `Chunk.try_from` returns
exactly the constructed chunk, for every chunk type and every list of
data bytes with fewer than `2 ^ 32` entries; and every chunk obtained from
a successful parse of a byte buffer parses back from its own
serialization.  The bound on the data length is forced by the `as u32`
cast in `Chunk::new` (see the counterexample). -/
theorem c1_round_trip :
    (∀ (ct : ChunkType) (data : List Nat),
      (∀ b ∈ ct.bytes, b < 256) → (∀ b ∈ data, b < 256) → data.length < 2 ^ 32 →
      Chunk.try_from (Chunk.new ct data).as_bytes = .ok (Chunk.new ct data)) ∧
    (∀ (bytes : List Nat) (c : Chunk), (∀ b ∈ bytes, b < 256) →
      Chunk.try_from bytes = .ok c → Chunk.try_from c.as_bytes = .ok c) := by
  constructor
  · intro ct data hct hdata hlen
    have hnew : Chunk.new ct data = ⟨data.length, ct, data, calculate_crc ct data⟩ := by
      simp only [Chunk.new, Chunk.mk.injEq]
      refine ⟨by omega, trivial, trivial, trivial⟩
    rw [hnew]
    refine try_from_as_bytes _ _ _ _ rfl hlen rfl (crc32_lt _ ?_)
    intro b hb
    rcases List.mem_append.1 hb with h | h
    exacts [hct b h, hdata b h]
  · intro bytes c hbytes hok
    obtain ⟨e1, e2, e3, e4, e5, e6, e7⟩ := try_from_ok_spec bytes c hok
    have hL32 : c.length < 2 ^ 32 := by
      rw [e1]; exact u32_from_be_lt _ (fun b hb => hbytes b (List.take_subset _ _ hb))
    have hslice_len : ((bytes.drop 4).take 4).length = 4 := by
      simp only [List.length_take, List.length_drop]; omega
    have hctbytes : c.chunk_type.bytes = (bytes.drop 4).take 4 := by
      rw [e4]; exact try_from_bytes_of_len4 _ hslice_len
    have hcrc32' : c.crc < 2 ^ 32 := by
      rw [e6]
      apply crc32_lt
      intro b hb
      rcases List.mem_append.1 hb with h | h
      · rw [hctbytes] at h
        exact hbytes b (List.drop_subset _ _ (List.take_subset _ _ h))
      · rw [e5] at h
        exact hbytes b (List.drop_subset _ _ (List.take_subset _ _ h))
    exact try_from_as_bytes c.length c.chunk_type c.data c.crc e7 hL32 e6 hcrc32'

set_option maxRecDepth 4000 in
/-- Witness for C1 at the concrete data `[1, 2, 3]` and at the chunk parsed
from `good_buffer`. -/
theorem c1_witness :
    Chunk.try_from (Chunk.new rust_ct [1, 2, 3]).as_bytes = .ok (Chunk.new rust_ct [1, 2, 3]) ∧
    Chunk.try_from (Chunk.as_bytes ⟨0, rust_ct, [], calculate_crc rust_ct []⟩) =
      .ok ⟨0, rust_ct, [], calculate_crc rust_ct []⟩ :=
  ⟨c1_round_trip.1 rust_ct [1, 2, 3] (by decide) (by decide) (by decide),
   c1_round_trip.2 good_buffer _ (by decide) (by decide)⟩

set_option maxRecDepth 4000 in
theorem try_from_new_trunc (data : List Nat) (hlen : data.length = 2 ^ 32)
    (htake : data.take 4 = [0, 0, 0, 0]) :
    Chunk.try_from (Chunk.new rust_ct data).as_bytes = .err "CRC mismatch" := by
  have hnew : Chunk.new rust_ct data = ⟨0, rust_ct, data, calculate_crc rust_ct data⟩ := by
    simp only [Chunk.new, Chunk.mk.injEq]
    refine ⟨by omega, trivial, trivial, trivial⟩
  rw [hnew]
  set C := calculate_crc rust_ct data with hC
  set B := Chunk.as_bytes ⟨0, rust_ct, data, C⟩ with hB
  have h1 : B = u32_to_be 0 ++ (rust_ct.bytes ++ (data ++ u32_to_be C)) := by
    simp [hB, Chunk.as_bytes]
  have h2 : B = (u32_to_be 0 ++ rust_ct.bytes) ++ (data ++ u32_to_be C) := by
    simp [hB, Chunk.as_bytes, List.append_assoc]
  have hlenB : B.length = data.length + 12 := by
    rw [h1]
    simp [u32_to_be, ChunkType.bytes]
  have htake4 : B.take 4 = u32_to_be 0 := by
    rw [h1]; exact take_left_of_len _ _ _ rfl
  have hdec : u32_from_be (B.take 4) = 0 := by rw [htake4]; decide
  have hct : (B.drop 4).take 4 = rust_ct.bytes := by
    have hd : B.drop 4 = rust_ct.bytes ++ (data ++ u32_to_be C) := by
      rw [h1]; exact drop_left_of_len _ _ _ rfl
    rw [hd]; exact take_left_of_len _ _ _ rfl
  have hdrop8 : B.drop 8 = data ++ u32_to_be C := by
    rw [h2]
    exact drop_left_of_len _ _ _ (by simp [u32_to_be, ChunkType.bytes, rust_ct])
  have hstored : crc_shift_sum ((B.drop (0 + 8)).take 4) = 0 := by
    rw [Nat.zero_add, hdrop8]
    rw [List.take_append_of_le_length (by omega), htake]
    decide
  have hdata : (B.drop 8).take 0 = [] := List.take_zero _
  rw [try_from_eq B 0 (by omega) hdec (by omega)]
  rw [hct, try_from_ct_bytes, hdata, hstored]
  rw [if_pos (by decide)]

/-- Claim C1, as stated, is false at a concrete input: for the data
`List.replicate (2 ^ 32) 0`, the `as u32` cast truncates the stored length
field to 0, and parsing the serialization fails with a CRC mismatch instead
of returning the original chunk. -/
theorem c1_counterexample :
    Chunk.try_from (Chunk.new rust_ct (List.replicate (2 ^ 32) 0)).as_bytes ≠
      .ok (Chunk.new rust_ct (List.replicate (2 ^ 32) 0)) := by
  have h := try_from_new_trunc (List.replicate (2 ^ 32) 0)
    (by rw [List.length_replicate])
    (by rw [List.take_replicate, show min 4 (2 ^ 32) = 4 from by norm_num]; rfl)
  rw [h]
  exact fun hh => ParseResult.noConfusion hh

/-- Claim C7 (amended): every chunk built by `Chunk.new` from data with
fewer than `2 ^ 32` bytes, and every chunk returned by a successful
`Chunk.try_from`, satisfies both invariants: the crc field equals CRC-32
over the 4 chunk-type bytes followed by the data, and the length field
equals the byte count of the data.  The bound on the data length is forced
by the `as u32` cast in `Chunk::new` (see the counterexample). -/
theorem c7_invariants :
    (∀ (ct : ChunkType) (data : List Nat), data.length < 2 ^ 32 →
      (Chunk.new ct data).length = data.length ∧
      (Chunk.new ct data).crc = crc32 (ct.bytes ++ data)) ∧
    (∀ (bytes : List Nat) (c : Chunk), Chunk.try_from bytes = .ok c →
      c.length = c.data.length ∧ c.crc = crc32 (c.chunk_type.bytes ++ c.data)) := by
  constructor
  · intro ct data h
    exact ⟨by simp only [Chunk.new]; omega, rfl⟩
  · intro bytes c hok
    obtain ⟨e1, e2, e3, e4, e5, e6, e7⟩ := try_from_ok_spec bytes c hok
    exact ⟨e7, e6⟩

set_option maxRecDepth 4000 in
/-- Witness for C7 at the concrete data `[1, 2, 3]` and at the chunk parsed
from `good_buffer`. -/
theorem c7_witness :
    ((Chunk.new rust_ct [1, 2, 3]).length = ([1, 2, 3] : List Nat).length ∧
     (Chunk.new rust_ct [1, 2, 3]).crc = crc32 (rust_ct.bytes ++ [1, 2, 3])) ∧
    ((⟨0, rust_ct, [], calculate_crc rust_ct []⟩ : Chunk).length =
       (⟨0, rust_ct, [], calculate_crc rust_ct []⟩ : Chunk).data.length ∧
     (⟨0, rust_ct, [], calculate_crc rust_ct []⟩ : Chunk).crc =
       crc32 ((⟨0, rust_ct, [], calculate_crc rust_ct []⟩ : Chunk).chunk_type.bytes ++
         (⟨0, rust_ct, [], calculate_crc rust_ct []⟩ : Chunk).data)) :=
  ⟨c7_invariants.1 rust_ct [1, 2, 3] (by decide),
   c7_invariants.2 good_buffer _ (by decide)⟩

/-- Claim C7, as stated, is false at a concrete input: the chunk built by
`Chunk.new` from `List.replicate (2 ^ 32) 0` stores length field 0, not the
byte count `2 ^ 32` of its data. -/
theorem c7_counterexample :
    (Chunk.new rust_ct (List.replicate (2 ^ 32) 0)).length ≠
      (List.replicate (2 ^ 32) 0).length := by
  simp only [Chunk.new, List.length_replicate]
  omega
